import Mathlib

/-!
Shallow embedding of the execution-and-orchestration core of the
claude-code-server repository: the task store and session store
(storage/taskStore.js, storage/sessionStore.js), the locked JSON base
store (storage/baseStore.js), the statistics store
(storage/statsStore.js), the agent executor
(services/claudeExecutor.js), the in-memory task queue
(services/taskQueue.js) and the webhook notifier
(services/webhookNotifier.js).

Conventions of the embedding:
* ISO-8601 timestamp strings produced by BaseStore.now() are modelled
  as natural numbers (epoch milliseconds); the JavaScript comparisons
  via new Date(..) coincide with the numeric order.
* JavaScript monetary floats are modelled as rationals; every claim
  settled here is conditional on comparison outcomes, not on binary
  rounding.
* Task and session status values are kept as the literal strings the
  source uses.
* A JavaScript object-spread merge such as "spread task, spread updates"
  is modelled by a patch record whose fields are present (some v) or
  absent (none).
-/

namespace CCServer

/-- Task record, from TaskStore.create in storage/taskStore.js. -/
structure Task where
  id : String
  created_at : Nat
  updated_at : Nat
  status : String
  priority : Nat
  prompt : String
  project_path : String
  model : String
  result : Option String
  error : Option String
  started_at : Option Nat
  completed_at : Option Nat
  duration_ms : Option Nat
  cost_usd : Rat
  deriving DecidableEq, Repr

/-- Update object passed to TaskStore.update: a field that is some v is a
key present in the JavaScript updates object. -/
structure TaskPatch where
  status : Option String := none
  priority : Option Nat := none
  result : Option String := none
  error : Option String := none
  started_at : Option Nat := none
  completed_at : Option Nat := none
  duration_ms : Option (Option Nat) := none
  cost_usd : Option Rat := none
  deriving DecidableEq, Repr

/-- Spread-merge of a task with an updates object, plus the
updated_at := now() assignment TaskStore.update always performs. -/
def applyTaskPatch (now : Nat) (t : Task) (p : TaskPatch) : Task :=
  { t with
    status := p.status.getD t.status
    priority := p.priority.getD t.priority
    result := (p.result.map some).getD t.result
    error := (p.error.map some).getD t.error
    started_at := (p.started_at.map some).getD t.started_at
    completed_at := (p.completed_at.map some).getD t.completed_at
    duration_ms := p.duration_ms.getD t.duration_ms
    cost_usd := p.cost_usd.getD t.cost_usd
    updated_at := now }

/-- Replace the first element satisfying the predicate, as the
findIndex-then-assign idiom of TaskStore.update does. -/
def replaceFirst (p : α → Bool) (f : α → α) : List α → List α
  | [] => []
  | a :: l => if p a then f a :: l else a :: replaceFirst p f l

/-- TaskStore.get: find by id (Array.prototype.find). -/
def findTask (tid : String) (ts : List Task) : Option Task :=
  ts.find? (fun t => t.id == tid)

/-- TaskStore.update: merge the updates into the first task with the
given id; returns the updated record (null when the id is absent)
together with the new document. -/
def taskUpdate (now : Nat) (tid : String) (p : TaskPatch) (ts : List Task) :
    Option Task × List Task :=
  match findTask tid ts with
  | none => (none, ts)
  | some t =>
      let t' := applyTaskPatch now t p
      (some t', replaceFirst (fun u => u.id == tid) (fun _ => t') ts)

/-- TaskStore.create: the fresh record pushed onto the tasks array. -/
def createTask (now : Nat) (tid prompt projectPath model : String)
    (priority : Nat) : Task :=
  { id := tid
    created_at := now
    updated_at := now
    status := "pending"
    prompt := prompt
    project_path := projectPath
    model := model
    priority := priority
    result := none
    error := none
    started_at := none
    completed_at := none
    duration_ms := none
    cost_usd := 0 }

/-- TaskStore.markProcessing. -/
def markProcessing (now : Nat) (tid : String) (ts : List Task) :
    Option Task × List Task :=
  taskUpdate now tid { status := some "processing", started_at := some now } ts

/-- TaskStore.markCompleted: reads the task, computes the duration from
started_at, then updates unconditionally to status completed. -/
def markCompleted (now : Nat) (tid : String) (result : String)
    (costUsd : Rat) (ts : List Task) : Option Task × List Task :=
  match findTask tid ts with
  | none => (none, ts)
  | some t =>
      taskUpdate now tid
        { status := some "completed"
          completed_at := some now
          result := some result
          cost_usd := some costUsd
          duration_ms := some (t.started_at.map (fun s => now - s)) } ts

/-- TaskStore.markFailed: reads the task, computes the duration, then
updates unconditionally to status failed. -/
def markFailed (now : Nat) (tid : String) (error : String)
    (ts : List Task) : Option Task × List Task :=
  match findTask tid ts with
  | none => (none, ts)
  | some t =>
      taskUpdate now tid
        { status := some "failed"
          completed_at := some now
          error := some error
          duration_ms := some (t.started_at.map (fun s => now - s)) } ts

/-- TaskStore.cancel: only pending or processing tasks are cancelled;
any other status returns null and leaves the document unchanged. -/
def cancelStore (now : Nat) (tid : String) (ts : List Task) :
    Option Task × List Task :=
  match findTask tid ts with
  | none => (none, ts)
  | some t =>
      if t.status ≠ "pending" ∧ t.status ≠ "processing" then (none, ts)
      else
        taskUpdate now tid
          { status := some "cancelled", completed_at := some now } ts

/-- A terminal task status. -/
def terminal (status : String) : Prop :=
  status = "completed" ∨ status = "failed" ∨ status = "cancelled"

instance : DecidablePred terminal := fun s => by
  unfold terminal; infer_instance

/-- Comparator order of TaskStore.getNextPending and TaskStore.list: a
precedes b when its priority is higher, or priorities tie and its
created_at is not later. -/
def taskLE (a b : Task) : Prop :=
  b.priority < a.priority ∨ (a.priority = b.priority ∧ a.created_at ≤ b.created_at)

instance : DecidableRel taskLE := fun a b => by
  unfold taskLE; infer_instance

instance : IsTotal Task taskLE where
  total a b := by
    rcases Nat.lt_trichotomy a.priority b.priority with h | h | h
    · exact Or.inr (Or.inl h)
    · rcases Nat.le_total a.created_at b.created_at with h' | h'
      · exact Or.inl (Or.inr ⟨h, h'⟩)
      · exact Or.inr (Or.inr ⟨h.symm, h'⟩)
    · exact Or.inl (Or.inl h)

instance : IsTrans Task taskLE where
  trans a b c hab hbc := by
    rcases hab with h1 | ⟨e1, c1⟩
    · rcases hbc with h2 | ⟨e2, _⟩
      · exact Or.inl (Nat.lt_trans h2 h1)
      · exact Or.inl (e2 ▸ h1)
    · rcases hbc with h2 | ⟨e2, c2⟩
      · exact Or.inl (e1 ▸ h2)
      · exact Or.inr ⟨e1.trans e2, Nat.le_trans c1 c2⟩

/-- TaskStore.getNextPending: filter the pending tasks, stable-sort by
priority descending then created_at ascending, return the head. -/
def getNextPending (ts : List Task) : Option Task :=
  (List.insertionSort taskLE (ts.filter (fun t => t.status == "pending"))).head?

/-- Session record, from SessionStore.create in storage/sessionStore.js. -/
structure Session where
  id : String
  created_at : Nat
  updated_at : Nat
  model : String
  project_path : String
  total_cost_usd : Rat
  messages_count : Nat
  status : String
  deriving DecidableEq, Repr

/-- Update object passed to SessionStore.update (spread-merged blindly). -/
structure SessionPatch where
  status : Option String := none
  model : Option String := none
  total_cost_usd : Option Rat := none
  messages_count : Option Nat := none
  deriving DecidableEq, Repr

/-- Spread-merge of a session with an updates object plus the
updated_at := now() assignment of SessionStore.update. -/
def applySessionPatch (now : Nat) (s : Session) (p : SessionPatch) : Session :=
  { s with
    status := p.status.getD s.status
    model := p.model.getD s.model
    total_cost_usd := p.total_cost_usd.getD s.total_cost_usd
    messages_count := p.messages_count.getD s.messages_count
    updated_at := now }

/-- SessionStore.get. -/
def findSession (sid : String) (ss : List Session) : Option Session :=
  ss.find? (fun s => s.id == sid)

/-- SessionStore.update: blind merge into the first session with the id. -/
def sessionUpdate (now : Nat) (sid : String) (p : SessionPatch)
    (ss : List Session) : Option Session × List Session :=
  match findSession sid ss with
  | none => (none, ss)
  | some s =>
      let s' := applySessionPatch now s p
      (some s', replaceFirst (fun u => u.id == sid) (fun _ => s') ss)

/-- SessionStore.addCost: total_cost_usd := (total_cost_usd or 0) + costUsd;
for a rational the JavaScript (x or 0) equals x. -/
def addCost (now : Nat) (sid : String) (costUsd : Rat)
    (ss : List Session) : Option Session × List Session :=
  match findSession sid ss with
  | none => (none, ss)
  | some s =>
      let s' := { s with total_cost_usd := s.total_cost_usd + costUsd
                         updated_at := now }
      (some s', replaceFirst (fun u => u.id == sid) (fun _ => s') ss)

/-- SessionStore.incrementMessages: messages_count := (count or 0) + 1. -/
def incrementMessages (now : Nat) (sid : String)
    (ss : List Session) : Option Session × List Session :=
  match findSession sid ss with
  | none => (none, ss)
  | some s =>
      let s' := { s with messages_count := s.messages_count + 1
                         updated_at := now }
      (some s', replaceFirst (fun u => u.id == sid) (fun _ => s') ss)

/-!
Task queue (services/taskQueue.js). The runtime state of a TaskQueue
instance: the persistent tasks document, the activeTasks map (its key
list; Map.set of a fresh key appends, Map.delete removes), and the set
of task ids whose executeTask invocation is past markProcessing and
awaiting the executor promise. The executor child is never signalled by
the queue, so an id stays in flight until its executeTask continuation
runs.
-/

structure QueueState where
  tasks : List Task
  active : List String
  inflight : List String
  concurrency : Nat
  running : Bool
  deriving DecidableEq, Repr

/-- Queue state right after TaskQueue.start on a store document. -/
def initQueue (concurrency : Nat) (ts : List Task) : QueueState :=
  { tasks := ts, active := [], inflight := [], concurrency := concurrency,
    running := true }

/-- TaskQueue.addTask: TaskStore.create pushes a fresh pending task. -/
def qEnqueue (now : Nat) (tid prompt projectPath model : String)
    (priority : Nat) (q : QueueState) : QueueState :=
  { q with tasks := q.tasks ++ [createTask now tid prompt projectPath model priority] }

/-- TaskQueue.processQueue, successful path: return unless running, below
the concurrency cap, and a pending task not already active exists; then
occupy the slot and mark the task processing, handing it to executeTask. -/
def qDispatch (now : Nat) (q : QueueState) : QueueState :=
  if ¬ q.running then q
  else if q.concurrency ≤ q.active.length then q
  else
    match getNextPending q.tasks with
    | none => q
    | some t =>
        if t.id ∈ q.active then q
        else
          { q with
            active := q.active ++ [t.id]
            tasks := (markProcessing now t.id q.tasks).2
            inflight := q.inflight ++ [t.id] }

/-- TaskQueue.processQueue when markProcessing throws (lock timeout, so
the store document is untouched): the just-inserted id is deleted again
and no execution starts. -/
def qDispatchMarkFail (q : QueueState) : QueueState :=
  if ¬ q.running then q
  else if q.concurrency ≤ q.active.length then q
  else
    match getNextPending q.tasks with
    | none => q
    | some t =>
        if t.id ∈ q.active then q
        else { q with active := (q.active ++ [t.id]).erase t.id }

/-- TaskQueue.executeTask continuation once the executor resolves with
success: markCompleted with the result and cost, then the finally block
deletes the id from activeTasks. -/
def qFinishSuccess (now : Nat) (tid result : String) (costUsd : Rat)
    (q : QueueState) : QueueState :=
  { q with
    tasks := (markCompleted now tid result costUsd q.tasks).2
    active := q.active.erase tid
    inflight := q.inflight.erase tid }

/-- TaskQueue.executeTask continuation once the executor resolves with
failure (or throws): markFailed, then the finally block deletes the id. -/
def qFinishFailure (now : Nat) (tid error : String) (q : QueueState) :
    QueueState :=
  { q with
    tasks := (markFailed now tid error q.tasks).2
    active := q.active.erase tid
    inflight := q.inflight.erase tid }

/-- TaskQueue.executeTask timeout timer: markFailed with the timeout
message and delete the id from activeTasks; the executor promise is
still pending, so the id stays in flight. -/
def qTimeoutFire (now : Nat) (tid : String) (q : QueueState) : QueueState :=
  { q with
    tasks := (markFailed now tid "Task execution timeout" q.tasks).2
    active := q.active.erase tid }

/-- Result shape of TaskQueue.cancelTask. -/
inductive CancelResult where
  | ok
  | notFound
  | wrongStatus (status : String)
  | storeRefused
  deriving DecidableEq, Repr

/-- TaskQueue.cancelTask: read the task; refuse unless pending or
processing; delete the id from activeTasks; TaskStore.cancel; report. -/
def qCancel (now : Nat) (tid : String) (q : QueueState) :
    CancelResult × QueueState :=
  match findTask tid q.tasks with
  | none => (.notFound, q)
  | some t =>
      if t.status ≠ "pending" ∧ t.status ≠ "processing" then
        (.wrongStatus t.status, q)
      else
        let q1 := { q with active := q.active.erase tid }
        match cancelStore now tid q1.tasks with
        | (some _, ts') => (.ok, { q1 with tasks := ts' })
        | (none, ts') => (.storeRefused, { q1 with tasks := ts' })

/-- One observable queue step: an enqueue, a scheduler dispatch (with or
without markProcessing succeeding), an executeTask completion, a timeout
firing, or a cancellation. -/
inductive QStep : QueueState → QueueState → Prop where
  | enqueue (now : Nat) (tid prompt pp model : String) (prio : Nat)
      (q : QueueState) : QStep q (qEnqueue now tid prompt pp model prio q)
  | dispatch (now : Nat) (q : QueueState) : QStep q (qDispatch now q)
  | dispatchMarkFail (q : QueueState) : QStep q (qDispatchMarkFail q)
  | finishSuccess (now : Nat) (tid result : String) (costUsd : Rat)
      (q : QueueState) (h : tid ∈ q.inflight) :
      QStep q (qFinishSuccess now tid result costUsd q)
  | finishFailure (now : Nat) (tid error : String) (q : QueueState)
      (h : tid ∈ q.inflight) : QStep q (qFinishFailure now tid error q)
  | timeoutFire (now : Nat) (tid : String) (q : QueueState)
      (h : tid ∈ q.inflight) : QStep q (qTimeoutFire now tid q)
  | cancel (now : Nat) (tid : String) (q : QueueState) :
      QStep q (qCancel now tid q).2

/-- States reachable from a queue start by any step sequence. -/
def QReachable (concurrency : Nat) (ts : List Task) (q : QueueState) : Prop :=
  Relation.ReflTransGen QStep (initQueue concurrency ts) q

/-!
Locked base store (storage/baseStore.js). The withLock critical section
over one JSON document: acquire the lock file, run the operation on the
in-memory document, persist it with db.write, release the lock in a
finally block. The operation and the write can each fail.
-/

structure LockStore (α : Type) where
  locked : Bool
  memory : α
  disk : α
  deriving DecidableEq, Repr

inductive LockError (ε : Type) where
  | lockTimeout
  | opError (e : ε)
  | writeError
  deriving DecidableEq, Repr

/-- BaseStore.withLock: acquireLock (times out if the lock file already
exists for the whole window), run the operation on the memory document,
db.write the memory document to disk (which can fail), and release the
lock on every path via the finally block. Nothing restores the memory
document when the write fails. -/
def withLock (op : α → Except ε α) (writeOk : Bool) (s : LockStore α) :
    Except (LockError ε) α × LockStore α :=
  if s.locked then (.error .lockTimeout, s)
  else
    match op s.memory with
    | .error e => (.error (.opError e), { s with locked := false })
    | .ok m =>
        if writeOk then (.ok m, { locked := false, memory := m, disk := m })
        else (.error .writeError, { locked := false, memory := m, disk := s.disk })

/-!
Statistics store (storage/statsStore.js). The persistent document and
recordRequest. The getToday clock read is passed in as the date string;
dates are ISO YYYY-MM-DD, whose calendar order is the lexicographic
string order, so the 90-day retention cutoff is passed as a date string
as well.
-/

structure RequestCounters where
  total : Nat
  successful : Nat
  failed : Nat
  deriving DecidableEq, Repr

structure TokenCounters where
  total_input : Nat
  total_output : Nat
  deriving DecidableEq, Repr

structure ModelStat where
  count : Nat
  cost_usd : Rat
  deriving DecidableEq, Repr

structure DailyEntry where
  date : String
  total_requests : Nat
  successful_requests : Nat
  failed_requests : Nat
  total_cost_usd : Rat
  total_input_tokens : Nat
  total_output_tokens : Nat
  models : List (String × Nat)
  deriving DecidableEq, Repr

structure StatsData where
  daily : List DailyEntry
  requests : RequestCounters
  tokens : TokenCounters
  costs_total_usd : Rat
  models : List (String × ModelStat)
  deriving DecidableEq, Repr

/-- Argument object of StatsStore.recordRequest; a missing model key is
none, missing numeric fields behave like 0 under JavaScript truthiness. -/
structure RecordData where
  success : Bool
  model : Option String := none
  cost_usd : Rat := 0
  input_tokens : Nat := 0
  output_tokens : Nat := 0
  deriving DecidableEq, Repr

/-- Bump a model entry in an object used as a map, creating it at zero
first when absent. -/
def bumpModel (name : String) (cost : Rat) :
    List (String × ModelStat) → List (String × ModelStat)
  | [] => [(name, { count := 1, cost_usd := cost })]
  | (n, st) :: rest =>
      if n = name then
        (n, { count := st.count + 1, cost_usd := st.cost_usd + cost }) :: rest
      else (n, st) :: bumpModel name cost rest

/-- Bump a per-day model counter, creating it at zero when absent. -/
def bumpDailyModel (name : String) :
    List (String × Nat) → List (String × Nat)
  | [] => [(name, 1)]
  | (n, c) :: rest =>
      if n = name then (n, c + 1) :: rest else (n, c) :: bumpDailyModel name rest

/-- Advance an existing daily entry by one recorded request. -/
def bumpDailyEntry (data : RecordData) (d : DailyEntry) : DailyEntry :=
  { d with
    total_requests := d.total_requests + 1
    successful_requests := d.successful_requests + (if data.success then 1 else 0)
    failed_requests := d.failed_requests + (if data.success then 0 else 1)
    total_cost_usd := d.total_cost_usd + data.cost_usd
    total_input_tokens := d.total_input_tokens + data.input_tokens
    total_output_tokens := d.total_output_tokens + data.output_tokens
    models := match data.model with
      | some m => if m ≠ "" then bumpDailyModel m d.models else d.models
      | none => d.models }

/-- Fresh daily entry pushed when today has no record yet. -/
def freshDailyEntry (today : String) : DailyEntry :=
  { date := today, total_requests := 0, successful_requests := 0,
    failed_requests := 0, total_cost_usd := 0, total_input_tokens := 0,
    total_output_tokens := 0, models := [] }

/-- StatsStore.recordRequest: advance the global counters, the token and
cost totals, the per-model map, and the (found-or-created) entry for
today; then drop daily entries older than the 90-day cutoff. -/
def recordRequest (today cutoff : String) (data : RecordData)
    (s : StatsData) : StatsData :=
  let daily1 :=
    if (s.daily.find? (fun d => d.date == today)).isSome then
      replaceFirst (fun d => d.date == today) (bumpDailyEntry data) s.daily
    else s.daily ++ [bumpDailyEntry data (freshDailyEntry today)]
  { daily := daily1.filter (fun d => cutoff ≤ d.date)
    requests :=
      { total := s.requests.total + 1
        successful := s.requests.successful + (if data.success then 1 else 0)
        failed := s.requests.failed + (if data.success then 0 else 1) }
    tokens :=
      { total_input := s.tokens.total_input + data.input_tokens
        total_output := s.tokens.total_output + data.output_tokens }
    costs_total_usd := s.costs_total_usd + data.cost_usd
    models := match data.model with
      | some m => if m ≠ "" then bumpModel m data.cost_usd s.models else s.models
      | none => s.models }

/-!
Webhook notifier (services/webhookNotifier.js). One HTTP attempt either
resolves with a status code or throws (network error, timeout, or the
HTTP client surfacing a non-success status as an exception). The
environment is a function from the 1-based attempt number to its
outcome. Besides the returned value, the model records the backoff
delays actually awaited and how many attempts were made.
-/

inductive AttemptOutcome where
  | resolved (status : Nat)
  | thrown (msg : String)
  deriving DecidableEq, Repr

/-- Value returned by WebhookNotifier.notify. -/
inductive NotifyOutcome where
  | disabled
  | noUrl
  | delivered (status attempt : Nat)
  | exhausted (attempts : Nat) (lastError : Option String)
  deriving DecidableEq, Repr

structure NotifyTrace where
  result : NotifyOutcome
  delays : List Nat
  attemptsMade : Nat
  deriving DecidableEq, Repr

/-- Exponential backoff of the retry loop: min(1000 * 2^(n-1), 10000). -/
def backoffDelay (n : Nat) : Nat := min (1000 * 2 ^ (n - 1)) 10000

/-- The lastError string a failing attempt leaves behind. -/
def attemptErrMsg : AttemptOutcome → String
  | .resolved s => "Unexpected status code: " ++ toString s
  | .thrown m => m

/-- The retry loop of WebhookNotifier.notify, with fuel = remaining
attempts (so fuel + attempt = maxRetries + 1 at every call). A 2xx
response returns immediately; a non-2xx response records lastError and
retries with no wait (the backoff sits in the catch branch only); a
thrown attempt records lastError and, unless it was the last attempt,
awaits the exponential backoff. -/
def notifyGo (outcome : Nat → AttemptOutcome) (maxRetries : Nat) :
    Nat → Nat → Option String → NotifyTrace
  | 0, _, lastError => ⟨.exhausted maxRetries lastError, [], 0⟩
  | fuel + 1, attempt, _ =>
      match outcome attempt with
      | .resolved s =>
          if 200 ≤ s ∧ s < 300 then ⟨.delivered s attempt, [], 1⟩
          else
            let rest := notifyGo outcome maxRetries fuel (attempt + 1)
              (some ("Unexpected status code: " ++ toString s))
            ⟨rest.result, rest.delays, rest.attemptsMade + 1⟩
      | .thrown m =>
          let rest := notifyGo outcome maxRetries fuel (attempt + 1) (some m)
          if fuel = 0 then ⟨rest.result, rest.delays, rest.attemptsMade + 1⟩
          else ⟨rest.result, backoffDelay attempt :: rest.delays,
                 rest.attemptsMade + 1⟩

/-- An attempt that does not deliver: it either throws or resolves with
a status outside the 2xx range. -/
def attemptFails : AttemptOutcome → Bool
  | .resolved s => ¬ (200 ≤ s ∧ s < 300)
  | .thrown _ => true

/-- Whether an attempt outcome is an exception (the only case the retry
loop backs off after). -/
def isThrown : AttemptOutcome → Bool
  | .resolved _ => false
  | .thrown _ => true

/-- Configuration slice the notifier reads in its constructor. -/
structure WebhookCfg where
  enabled : Bool
  defaultUrl : Option String
  maxRetries : Nat
  deriving DecidableEq, Repr

/-- WebhookNotifier.notify: disabled and missing-URL early returns, then
the retry loop starting at attempt 1. -/
def notify (cfg : WebhookCfg) (urlOverride : Option String)
    (outcome : Nat → AttemptOutcome) : NotifyTrace :=
  if ¬ cfg.enabled then ⟨.disabled, [], 0⟩
  else
    match urlOverride.orElse (fun _ => cfg.defaultUrl) with
    | none => ⟨.noUrl, [], 0⟩
    | some _ => notifyGo outcome cfg.maxRetries cfg.maxRetries 1 none

/-!
Agent executor (services/claudeExecutor.js). The executor is constructed
by server.js with both a session store and a statistics store, so both
are present. Wall-clock durations and log lines are not modelled; the
stores are threaded explicitly. The spawned child either resolves with
the parsed JSON document or rejects (spawn failure, timeout, non-zero
exit, empty output, parse failure).
-/

/-- Parsed child result: the fields of the single JSON document the CLI
prints that the executor reads. Absent fields are none. -/
structure ChildDoc where
  result : String
  total_cost_usd : Option Rat := none
  session_id : Option String := none
  input_tokens : Option Nat := none
  output_tokens : Option Nat := none
  deriving DecidableEq, Repr

inductive ChildOutcome where
  | ok (doc : ChildDoc)
  | err (msg : String)
  deriving DecidableEq, Repr

/-- Configuration slice the executor reads. enableRootCompatibility is
none when the option is absent from config.json. -/
structure ExecutorConfig where
  statisticsEnabled : Bool
  enableRootCompatibility : Option Bool := none
  nvmBin : String := ""
  deriving DecidableEq, Repr

/-- Effective execute options after the destructuring defaults (model
and maxBudgetUsd fall back to the configuration). JavaScript truthiness
makes maxBudgetUsd = 0 behave as unset, hence the explicit predicate. -/
structure ExecOptions where
  sessionId : Option String := none
  maxBudgetUsd : Option Rat := none
  model : Option String := none
  deriving DecidableEq, Repr

/-- Truthiness of an optional number: absent and zero are falsy. -/
def ratTruthy : Option Rat → Bool
  | none => false
  | some v => v ≠ 0

/-- Truthiness of an optional string: absent and empty are falsy. -/
def strTruthy : Option String → Bool
  | none => false
  | some s => s != ""

/-- Environment construction of ClaudeExecutor.spawnCommand: copy the
process environment, prepend nvmBin to PATH, and set IS_SANDBOX=1 unless
enableRootCompatibility is strictly equal to false (the root check in
that branch only selects a warning log line). -/
def spawnChildEnv (cfg : ExecutorConfig) (base : String → Option String) :
    String → Option String :=
  fun k =>
    if k = "IS_SANDBOX" then
      if cfg.enableRootCompatibility ≠ some false then some "1" else base k
    else if k = "PATH" then
      some (cfg.nvmBin ++ ":" ++ (base "PATH").getD "undefined")
    else base k

/-- Result value of ClaudeExecutor.execute, keeping the fields the
claims inspect. -/
structure ExecResult where
  success : Bool
  budget_exceeded : Bool := false
  error : Option String := none
  result : Option String := none
  cost_usd : Option Rat := none
  deriving DecidableEq, Repr

/-- Full outcome of one execute call: the returned value, the session
and statistics documents after the call, and whether a child process
was spawned. -/
structure ExecOutcome where
  res : ExecResult
  sessions : List Session
  stats : StatsData
  spawned : Bool
  deriving Repr

/-- Condition of the pre-budget check: sessionId and maxBudgetUsd are
truthy and the session exists with total_cost_usd at least the budget. -/
def preBudgetHit (opts : ExecOptions) (sessions : List Session) : Bool :=
  strTruthy opts.sessionId && ratTruthy opts.maxBudgetUsd &&
    (match opts.sessionId.bind (fun sid => findSession sid sessions) with
     | some s => decide (opts.maxBudgetUsd.getD 0 ≤ s.total_cost_usd)
     | none => false)

/-- Condition of the post-budget check: the re-read session cost (0 when
the session is gone) plus the parsed request cost exceeds the budget. -/
def postBudgetHit (opts : ExecOptions) (costUsd : Rat)
    (sessions : List Session) : Bool :=
  strTruthy opts.sessionId && ratTruthy opts.maxBudgetUsd &&
    decide (opts.maxBudgetUsd.getD 0 <
      ((opts.sessionId.bind (fun sid => findSession sid sessions)).map
          (fun s => s.total_cost_usd)).getD 0 + costUsd)

/-- ClaudeExecutor.execute. Steps in source order: the pre-budget check
(return with no spawn when the session already spent at least the
budget); the spawn; on rejection, record a failed request and return; on
success, the post-budget check (return without touching the session or
the statistics when the session cost plus the parsed cost exceeds the
budget); record a successful request; addCost and incrementMessages on
the session; return success. -/
def execute (cfg : ExecutorConfig) (now : Nat) (today cutoff : String)
    (opts : ExecOptions) (child : ChildOutcome)
    (sessions : List Session) (stats : StatsData) : ExecOutcome :=
  if preBudgetHit opts sessions then
    { res :=
        { success := false
          budget_exceeded := true
          error := some "Budget exceeded: session has already spent its limit" }
      sessions := sessions, stats := stats, spawned := false }
  else
    match child with
    | .err msg =>
        let stats' :=
          if cfg.statisticsEnabled then
            recordRequest today cutoff
              { success := false, model := opts.model } stats
          else stats
        { res := { success := false, error := some msg }
          sessions := sessions, stats := stats', spawned := true }
    | .ok doc =>
        let costUsd := doc.total_cost_usd.getD 0
        if postBudgetHit opts costUsd sessions then
          { res :=
              { success := false
                budget_exceeded := true
                error := some "Budget would be exceeded by this request" }
            sessions := sessions, stats := stats, spawned := true }
        else
          let stats' :=
            if cfg.statisticsEnabled then
              recordRequest today cutoff
                { success := true
                  model := opts.model
                  cost_usd := costUsd
                  input_tokens := doc.input_tokens.getD 0
                  output_tokens := doc.output_tokens.getD 0 } stats
            else stats
          let sessions' :=
            match opts.sessionId with
            | some sid =>
                if ¬ (strTruthy opts.sessionId) then sessions
                else
                  (incrementMessages now sid (addCost now sid costUsd sessions).2).2
            | none => sessions
          { res :=
              { success := true
                result := some doc.result
                cost_usd := some costUsd }
            sessions := sessions', stats := stats', spawned := true }

end CCServer

namespace CCServer

/-!
Theorems. Each claim of the specification is settled by one theorem
below; the counterexample theorems evaluate the embedded operations at
explicit inputs.
-/

/-- C7 counterexample: with the persistence step failing after an
operation that increments a counter document from 0 to 1, withLock
propagates the write error and releases the lock, but the in-memory
document stays at 1, the value the operation produced, instead of being
rolled back to the pre-operation value 0. -/
theorem C7_counterexample :
    let r := withLock (ε := Unit) (fun n => Except.ok (n + 1)) false
      (⟨false, 0, 0⟩ : LockStore Nat)
    r.2.locked = false ∧ r.2.memory = 1 ∧ r.2.disk = 0 ∧
    r.1 = Except.error LockError.writeError ∧ (1 : Nat) ≠ 0 := by
  refine ⟨rfl, rfl, rfl, rfl, by decide⟩

/-- C7 (amended): when the lock is free, withLock releases it again on
every path; an operation failure propagates with the document untouched;
a persistence failure propagates the write error with the disk copy
unchanged, but the in-memory document keeps the value the operation
produced (there is no rollback); on success memory and disk both hold
the new value. -/
theorem withLock_release_no_rollback {α ε : Type} (op : α → Except ε α)
    (writeOk : Bool) (s : LockStore α) (h : s.locked = false) :
    ((withLock op writeOk s).2.locked = false) ∧
    (∀ e, op s.memory = .error e →
        withLock op writeOk s = (.error (.opError e), { s with locked := false })) ∧
    (∀ m, op s.memory = .ok m → writeOk = false →
        withLock op writeOk s = (.error .writeError, ⟨false, m, s.disk⟩)) ∧
    (∀ m, op s.memory = .ok m → writeOk = true →
        withLock op writeOk s = (.ok m, ⟨false, m, m⟩)) := by
  refine ⟨?_, ?_, ?_, ?_⟩
  · unfold withLock
    rw [if_neg (by simp [h])]
    cases hop : op s.memory with
    | error e => rfl
    | ok m => cases writeOk <;> rfl
  · intro e hop
    unfold withLock
    rw [if_neg (by simp [h]), hop]
  · intro m hop hw
    unfold withLock
    rw [if_neg (by simp [h]), hop, hw]
    rfl
  · intro m hop hw
    unfold withLock
    rw [if_neg (by simp [h]), hop, hw]
    rfl

/-- Witness for the amended C7 theorem at a concrete store. -/
theorem withLock_release_no_rollback_witness :
    withLock (ε := Unit) (fun n : Nat => Except.ok (n + 1)) false ⟨false, 5, 5⟩ =
      (.error .writeError, ⟨false, 6, 5⟩) :=
  (withLock_release_no_rollback (fun n : Nat => Except.ok (n + 1)) false
    ⟨false, 5, 5⟩ rfl).2.2.1 6 rfl rfl

/-- C3 counterexample: in the default configuration, where
enableRootCompatibility is absent from config.json, spawnCommand sets
IS_SANDBOX=1 in the child environment even though the option is not
true; the source condition is only that the option is not strictly
false, and it never consults the process identity, so the same holds for
a non-root process. -/
theorem C3_counterexample :
    spawnChildEnv ⟨true, none, "/nvm"⟩ (fun _ => none) "IS_SANDBOX" = some "1" ∧
    (none : Option Bool) ≠ some true := by
  exact ⟨rfl, by decide⟩

/-- C3 (amended): the child environment of the executor carries
IS_SANDBOX=1 exactly when enableRootCompatibility is not explicitly
false; in particular the default configuration (option absent) sets it,
and only an explicit false leaves the inherited value. -/
theorem spawnChildEnv_is_sandbox (cfg : ExecutorConfig)
    (base : String → Option String) :
    spawnChildEnv cfg base "IS_SANDBOX" =
      (if cfg.enableRootCompatibility = some false then base "IS_SANDBOX"
       else some "1") := by
  by_cases hc : cfg.enableRootCompatibility = some false <;>
    simp [spawnChildEnv, hc]

/-- C6: when sessionId and maxBudgetUsd are set (truthy) and the session
already has total_cost_usd at or above the budget, execute returns the
budget_exceeded failure with a descriptive error, spawns no child, and
leaves the session store and the statistics store untouched. -/
theorem execute_pre_budget (cfg : ExecutorConfig) (now : Nat)
    (today cutoff : String) (opts : ExecOptions) (child : ChildOutcome)
    (sessions : List Session) (stats : StatsData) (sid : String)
    (s : Session) (b : Rat) (hsid : opts.sessionId = some sid)
    (hne : sid ≠ "") (hb : opts.maxBudgetUsd = some b) (hb0 : b ≠ 0)
    (hfind : findSession sid sessions = some s)
    (hover : b ≤ s.total_cost_usd) :
    execute cfg now today cutoff opts child sessions stats =
      { res := { success := false, budget_exceeded := true,
                 error := some "Budget exceeded: session has already spent its limit" },
        sessions := sessions, stats := stats, spawned := false } := by
  have hpre : preBudgetHit opts sessions = true := by
    simp [preBudgetHit, hsid, hb, hfind, strTruthy, ratTruthy, hne, hb0, hover]
  simp [execute, hpre]

/-- Witness for C6 at a session that already spent exactly the budget. -/
theorem execute_pre_budget_witness :
    execute ⟨true, none, ""⟩ 1 "2026-01-01" "2025-10-04"
        ⟨some "s1", some 10, some "m"⟩ (.err "boom")
        [⟨"s1", 0, 0, "m", "/p", 10, 0, "active"⟩] ⟨[], ⟨0, 0, 0⟩, ⟨0, 0⟩, 0, []⟩ =
      { res := { success := false, budget_exceeded := true,
                 error := some "Budget exceeded: session has already spent its limit" },
        sessions := [⟨"s1", 0, 0, "m", "/p", 10, 0, "active"⟩],
        stats := ⟨[], ⟨0, 0, 0⟩, ⟨0, 0⟩, 0, []⟩, spawned := false } :=
  execute_pre_budget _ _ _ _ _ _ _ _ "s1" ⟨"s1", 0, 0, "m", "/p", 10, 0, "active"⟩
    10 rfl (by decide) rfl (by norm_num) rfl (by norm_num)

/-- C2 counterexample: a session at cost 9 with budget 10 and a child
run that parses cost 2 yields the budget_exceeded failure with the
session untouched, but the statistics store is also untouched: the
successful-request counter does not advance, contradicting the claim
that the attempt is still recorded as a successful request. -/
theorem C2_counterexample :
    let sx : Session := ⟨"s1", 0, 0, "m", "/p", 9, 3, "active"⟩
    let st0 : StatsData := ⟨[], ⟨0, 0, 0⟩, ⟨0, 0⟩, 0, []⟩
    let o := execute ⟨true, none, ""⟩ 5 "2026-01-01" "2025-10-04"
      ⟨some "s1", some 10, some "m"⟩ (.ok ⟨"res", some 2, none, some 4, some 2⟩)
      [sx] st0
    o.res.success = false ∧ o.res.budget_exceeded = true ∧
    o.sessions = [sx] ∧ o.stats = st0 ∧
    o.stats.requests.successful ≠ st0.requests.successful + 1 := by
  simp only [execute, preBudgetHit, postBudgetHit, strTruthy, ratTruthy,
    findSession, List.find?]
  norm_num
  decide

/-- C2 (amended): when the child succeeds with parsed cost c and the
re-read session cost plus c exceeds the budget, execute returns the
budget_exceeded failure, the session store is untouched (so
total_cost_usd and messages_count are unchanged), and the statistics
store is untouched as well: the attempt is not recorded at all. -/
theorem execute_post_budget (cfg : ExecutorConfig) (now : Nat)
    (today cutoff : String) (opts : ExecOptions) (doc : ChildDoc)
    (sessions : List Session) (stats : StatsData) (sid : String)
    (s : Session) (b c : Rat) (hsid : opts.sessionId = some sid)
    (hne : sid ≠ "") (hb : opts.maxBudgetUsd = some b) (hb0 : b ≠ 0)
    (hfind : findSession sid sessions = some s)
    (hpre : s.total_cost_usd < b) (hc : doc.total_cost_usd = some c)
    (hover : b < s.total_cost_usd + c) :
    execute cfg now today cutoff opts (.ok doc) sessions stats =
      { res := { success := false, budget_exceeded := true,
                 error := some "Budget would be exceeded by this request" },
        sessions := sessions, stats := stats, spawned := true } := by
  have hpre' : preBudgetHit opts sessions = false := by
    simp [preBudgetHit, hsid, hb, hfind, strTruthy, ratTruthy, hne, hb0]
    exact hpre
  have hpost : postBudgetHit opts c sessions = true := by
    simp [postBudgetHit, hsid, hb, hfind, strTruthy, ratTruthy, hne, hb0, hover]
  simp [execute, hpre', hc, hpost]

/-- Witness for the amended C2 theorem at the counterexample numbers. -/
theorem execute_post_budget_witness :
    execute ⟨true, none, ""⟩ 5 "2026-01-01" "2025-10-04"
        ⟨some "s1", some 10, some "m"⟩ (.ok ⟨"res", some 2, none, some 4, some 2⟩)
        [⟨"s1", 0, 0, "m", "/p", 9, 3, "active"⟩] ⟨[], ⟨0, 0, 0⟩, ⟨0, 0⟩, 0, []⟩ =
      { res := { success := false, budget_exceeded := true,
                 error := some "Budget would be exceeded by this request" },
        sessions := [⟨"s1", 0, 0, "m", "/p", 9, 3, "active"⟩],
        stats := ⟨[], ⟨0, 0, 0⟩, ⟨0, 0⟩, 0, []⟩, spawned := true } :=
  execute_post_budget _ _ _ _ _ _ _ _ "s1"
    ⟨"s1", 0, 0, "m", "/p", 9, 3, "active"⟩ 10 2 rfl (by decide) rfl
    (by norm_num) rfl (by norm_num) rfl (by norm_num)


/-- Helper: replacing the first match of a predicate by a fixed element
that itself matches makes find? of that predicate return the element,
provided there was a match. -/
theorem find?_replaceFirst_same {α : Type} (p : α → Bool) (b : α)
    (hb : p b = true) :
    ∀ l : List α, (List.find? p l).isSome = true →
      List.find? p (replaceFirst p (fun _ => b) l) = some b := by
  intro l
  induction l with
  | nil => simp [List.find?]
  | cons a l ih =>
      by_cases hpa : p a
      · intro _
        simp [replaceFirst, hpa, List.find?, hb]
      · intro hsome
        simp only [List.find?, hpa] at hsome
        simp [replaceFirst, hpa, List.find?, ih hsome]

/-- Helper: replacing the first match of a predicate by an element that
fails a second predicate, when no match of the first can satisfy the
second, leaves find? of the second predicate unchanged. -/
theorem find?_replaceFirst_other {α : Type} (p q : α → Bool) (b : α)
    (himp : ∀ x, p x = true → q x = false) (hqb : q b = false) :
    ∀ l : List α,
      List.find? q (replaceFirst p (fun _ => b) l) = List.find? q l := by
  intro l
  induction l with
  | nil => simp [replaceFirst]
  | cons a l ih =>
      by_cases hpa : p a
      · simp [replaceFirst, hpa, List.find?, hqb, himp a hpa]
      · by_cases hqa : q a
        · simp [replaceFirst, hpa, List.find?, hqa]
        · simp [replaceFirst, hpa, List.find?, hqa, ih]

/-- Helper: a found session carries the id it was looked up by. -/
theorem findSession_id {sid : String} {ss : List Session} {s : Session}
    (h : findSession sid ss = some s) : s.id = sid := by
  have := List.find?_some h
  simpa using this

/-- Helper: after replacing the session with id sid by a record with the
same id, a lookup finds the replacement for sid and is unchanged for
every other id that was present. -/
theorem findSession_after_replace (s' : Session) {sid : String}
    {ss : List Session} {s : Session} (hfind : findSession sid ss = some s)
    (hid : s'.id = sid) (sid₀ : String) (s₀ : Session)
    (hfind₀ : findSession sid₀ ss = some s₀) :
    findSession sid₀ (replaceFirst (fun u => u.id == sid) (fun _ => s') ss) =
      some (if sid₀ = sid then s' else s₀) := by
  by_cases he : sid₀ = sid
  · subst he
    rw [if_pos rfl]
    unfold findSession
    refine find?_replaceFirst_same (fun u => u.id == sid₀) s' (by simp [hid]) ss ?_
    unfold findSession at hfind
    rw [hfind]
    rfl
  · rw [if_neg he]
    have hother := find?_replaceFirst_other (fun u => u.id == sid)
      (fun u => u.id == sid₀) s'
      (fun x hx => by
        have hxid : x.id = sid := by simpa using hx
        show (x.id == sid₀) = false
        rw [hxid, beq_eq_false_iff_ne]
        exact fun hc => he hc.symm)
      (by
        show (s'.id == sid₀) = false
        rw [hid, beq_eq_false_iff_ne]
        exact fun hc => he hc.symm) ss
    unfold findSession at hfind₀ ⊢
    rw [hother, hfind₀]

/-- C9 counterexample: SessionStore.update merges its patch blindly, so
updating a session whose total_cost_usd is 5 with a patch that sets
total_cost_usd to 0 decreases the counter, contradicting the claimed
monotonicity of every store operation. -/
theorem C9_counterexample :
    let s : Session := ⟨"s1", 0, 0, "m", "/p", 5, 2, "active"⟩
    let r := sessionUpdate 1 "s1" { total_cost_usd := some 0 } [s]
    (r.2.head?).map (fun u => u.total_cost_usd) = some 0 ∧ ¬ ((5 : Rat) ≤ 0) := by
  constructor
  · rfl
  · norm_num

/-- C9 (amended): incrementMessages never decreases either counter of
any stored session; addCost with a non-negative amount never decreases
them; and update preserves them provided the patch does not itself
assign a smaller total_cost_usd or messages_count to the targeted
session (the merge is blind, so nothing else enforces this). -/
theorem session_counters_monotone :
    (∀ now sid ss sid₀ s₀, findSession sid₀ ss = some s₀ →
       ∃ s₁, findSession sid₀ (incrementMessages now sid ss).2 = some s₁ ∧
         s₀.total_cost_usd ≤ s₁.total_cost_usd ∧
         s₀.messages_count ≤ s₁.messages_count) ∧
    (∀ now sid c ss sid₀ s₀, 0 ≤ c → findSession sid₀ ss = some s₀ →
       ∃ s₁, findSession sid₀ (addCost now sid c ss).2 = some s₁ ∧
         s₀.total_cost_usd ≤ s₁.total_cost_usd ∧
         s₀.messages_count ≤ s₁.messages_count) ∧
    (∀ now sid (p : SessionPatch) ss sid₀ s₀,
       (∀ v s, p.total_cost_usd = some v → findSession sid ss = some s →
          s.total_cost_usd ≤ v) →
       (∀ n s, p.messages_count = some n → findSession sid ss = some s →
          s.messages_count ≤ n) →
       findSession sid₀ ss = some s₀ →
       ∃ s₁, findSession sid₀ (sessionUpdate now sid p ss).2 = some s₁ ∧
         s₀.total_cost_usd ≤ s₁.total_cost_usd ∧
         s₀.messages_count ≤ s₁.messages_count) := by
  refine ⟨?_, ?_, ?_⟩
  · intro now sid ss sid₀ s₀ hfind₀
    unfold incrementMessages
    cases hfind : findSession sid ss with
    | none => exact ⟨s₀, hfind₀, le_refl _, le_refl _⟩
    | some s =>
        have hrepl := findSession_after_replace
          { s with messages_count := s.messages_count + 1, updated_at := now }
          hfind (by simpa using findSession_id hfind) sid₀ s₀ hfind₀
        by_cases he : sid₀ = sid
        · subst he
          obtain rfl : s₀ = s := by
            rw [hfind₀] at hfind
            exact Option.some_inj.mp hfind
          exact ⟨{ s₀ with messages_count := s₀.messages_count + 1,
                           updated_at := now },
            by simpa using hrepl, le_refl _, Nat.le_succ _⟩
        · exact ⟨s₀, by simpa [he] using hrepl, le_refl _, le_refl _⟩
  · intro now sid c ss sid₀ s₀ hc hfind₀
    unfold addCost
    cases hfind : findSession sid ss with
    | none => exact ⟨s₀, hfind₀, le_refl _, le_refl _⟩
    | some s =>
        have hrepl := findSession_after_replace
          { s with total_cost_usd := s.total_cost_usd + c, updated_at := now }
          hfind (by simpa using findSession_id hfind) sid₀ s₀ hfind₀
        by_cases he : sid₀ = sid
        · subst he
          obtain rfl : s₀ = s := by
            rw [hfind₀] at hfind
            exact Option.some_inj.mp hfind
          exact ⟨{ s₀ with total_cost_usd := s₀.total_cost_usd + c,
                           updated_at := now },
            by simpa using hrepl, le_add_of_nonneg_right hc, le_refl _⟩
        · exact ⟨s₀, by simpa [he] using hrepl, le_refl _, le_refl _⟩
  · intro now sid p ss sid₀ s₀ hpc hpm hfind₀
    unfold sessionUpdate
    cases hfind : findSession sid ss with
    | none => exact ⟨s₀, hfind₀, le_refl _, le_refl _⟩
    | some s =>
        have hrepl := findSession_after_replace (applySessionPatch now s p)
          hfind (by simpa [applySessionPatch] using findSession_id hfind)
          sid₀ s₀ hfind₀
        by_cases he : sid₀ = sid
        · subst he
          obtain rfl : s₀ = s := by
            rw [hfind₀] at hfind
            exact Option.some_inj.mp hfind
          refine ⟨applySessionPatch now s₀ p, by simpa using hrepl, ?_, ?_⟩
          · cases hv : p.total_cost_usd with
            | none => simp [applySessionPatch, hv]
            | some v => simpa [applySessionPatch, hv] using hpc v s₀ hv hfind
          · cases hn : p.messages_count with
            | none => simp [applySessionPatch, hn]
            | some n => simpa [applySessionPatch, hn] using hpm n s₀ hn hfind
        · exact ⟨s₀, by simpa [he] using hrepl, le_refl _, le_refl _⟩

/-- Witness for the amended C9 theorem: addCost of 2 on a session at 5
moves it to a session whose counters dominate the old ones. -/
theorem session_counters_monotone_witness :
    ∃ s₁, findSession "s1"
        (addCost 1 "s1" 2 [⟨"s1", 0, 0, "m", "/p", 5, 2, "active"⟩]).2 = some s₁ ∧
      (⟨"s1", 0, 0, "m", "/p", 5, 2, "active"⟩ : Session).total_cost_usd ≤
        s₁.total_cost_usd ∧
      (⟨"s1", 0, 0, "m", "/p", 5, 2, "active"⟩ : Session).messages_count ≤
        s₁.messages_count :=
  session_counters_monotone.2.1 1 "s1" 2 _ "s1" _ (by norm_num) rfl


/-- C1 counterexample: enqueue task T, dispatch it (processing), cancel
it while processing (persisted status cancelled, executor still in
flight), then let the in-flight executor finish successfully: the
executeTask continuation calls markCompleted, which overwrites the
terminal status, so the task ends completed with the executor result
persisted rather than staying cancelled with the result discarded. -/
theorem C1_counterexample :
    let q1 := (qCancel 3 "T" (qDispatch 2
      (qEnqueue 1 "T" "p" "/p" "m" 5 (initQueue 3 [])))).2
    let q2 := qFinishSuccess 4 "T" "done" 1 q1
    (findTask "T" q1.tasks).map (fun t => t.status) = some "cancelled" ∧
    "T" ∈ q1.inflight ∧
    (findTask "T" q2.tasks).map (fun t => t.status) = some "completed" ∧
    (findTask "T" q2.tasks).map (fun t => t.result) = some (some "done") ∧
    "completed" ≠ "cancelled" := by
  decide

/-- C1 (amended): TaskStore.cancel is the only guarded transition: on a
task whose status is terminal it returns null and leaves the document
unchanged; but markCompleted and markFailed update unconditionally, so
whenever the task id is present they force the status to completed
(persisting the given result) respectively failed, regardless of any
terminal status already reached. In particular a task cancelled while
processing whose in-flight executor later succeeds ends completed. -/
theorem terminal_status_not_protected :
    (∀ now tid ts t, findTask tid ts = some t → terminal t.status →
        cancelStore now tid ts = (none, ts)) ∧
    (∀ now tid ts t result c, findTask tid ts = some t →
        ∃ t', (markCompleted now tid result c ts).1 = some t' ∧
          t'.status = "completed" ∧ t'.result = some result) ∧
    (∀ now tid ts t msg, findTask tid ts = some t →
        ∃ t', (markFailed now tid msg ts).1 = some t' ∧
          t'.status = "failed" ∧ t'.error = some msg) := by
  refine ⟨?_, ?_, ?_⟩
  · intro now tid ts t hfind hterm
    have hne : t.status ≠ "pending" ∧ t.status ≠ "processing" := by
      rcases hterm with h | h | h <;> rw [h] <;> exact ⟨by decide, by decide⟩
    unfold cancelStore
    simp only [hfind]
    rw [if_pos hne]
  · intro now tid ts t result c hfind
    unfold markCompleted taskUpdate
    simp only [hfind]
    exact ⟨_, rfl, rfl, rfl⟩
  · intro now tid ts t msg hfind
    unfold markFailed taskUpdate
    simp only [hfind]
    exact ⟨_, rfl, rfl, rfl⟩

/-- Witness for the amended C1 theorem on a concrete cancelled task. -/
theorem terminal_status_not_protected_witness :
    cancelStore 9 "T"
        [⟨"T", 1, 3, "cancelled", 5, "p", "/p", "m", none, none, some 2,
          some 3, none, 0⟩] =
      (none, [⟨"T", 1, 3, "cancelled", 5, "p", "/p", "m", none, none, some 2,
        some 3, none, 0⟩]) ∧
    ∃ t', (markCompleted 9 "T" "late" 1
        [⟨"T", 1, 3, "cancelled", 5, "p", "/p", "m", none, none, some 2,
          some 3, none, 0⟩]).1 = some t' ∧
      t'.status = "completed" ∧ t'.result = some "late" :=
  ⟨terminal_status_not_protected.1 9 "T" _ _ rfl (Or.inr (Or.inr rfl)),
   terminal_status_not_protected.2.1 9 "T" _ _ "late" 1 rfl⟩

/-- C10: cancelTask on a task found in processing state returns ok with
the id already removed from activeTasks (the slot is freed before the
call returns); the in-flight executor set is untouched (no signal is
sent, the executor keeps running); and with distinct active ids the
later cleanup deletion of the same id in the executeTask finally block
is a no-op. -/
theorem cancelTask_frees_slot (now : Nat) (tid : String) (q : QueueState)
    (t : Task) (hfind : findTask tid q.tasks = some t)
    (hstatus : t.status = "processing") (hnodup : q.active.Nodup) :
    (qCancel now tid q).1 = CancelResult.ok ∧
    (qCancel now tid q).2.active = q.active.erase tid ∧
    tid ∉ (qCancel now tid q).2.active ∧
    ((qCancel now tid q).2.active).erase tid = (qCancel now tid q).2.active ∧
    (qCancel now tid q).2.inflight = q.inflight := by
  have hguard : ¬ (t.status ≠ "pending" ∧ t.status ≠ "processing") := by
    rw [hstatus]
    intro h
    exact h.2 rfl
  have hq : qCancel now tid q =
      (CancelResult.ok,
        { q with active := q.active.erase tid
                 tasks := (taskUpdate now tid
                   { status := some "cancelled", completed_at := some now }
                   q.tasks).2 }) := by
    unfold qCancel cancelStore taskUpdate
    simp only [hfind, if_neg hguard]
  have hnotmem : tid ∉ q.active.erase tid := fun hmem =>
    (List.Nodup.mem_erase_iff hnodup).mp hmem |>.1 rfl
  refine ⟨by rw [hq], by rw [hq], ?_, ?_, by rw [hq]⟩
  · rw [hq]
    exact hnotmem
  · rw [hq]
    exact List.erase_of_not_mem hnotmem

/-- Witness for the C10 theorem on a one-task queue. -/
theorem cancelTask_frees_slot_witness :
    (qCancel 7 "T" ⟨[⟨"T", 1, 2, "processing", 5, "p", "/p", "m", none, none,
        some 2, none, none, 0⟩], ["T"], ["T"], 3, true⟩).1 = CancelResult.ok ∧
    (qCancel 7 "T" ⟨[⟨"T", 1, 2, "processing", 5, "p", "/p", "m", none, none,
        some 2, none, none, 0⟩], ["T"], ["T"], 3, true⟩).2.active =
      (["T"] : List String).erase "T" ∧
    "T" ∉ (qCancel 7 "T" ⟨[⟨"T", 1, 2, "processing", 5, "p", "/p", "m", none,
        none, some 2, none, none, 0⟩], ["T"], ["T"], 3, true⟩).2.active ∧
    ((qCancel 7 "T" ⟨[⟨"T", 1, 2, "processing", 5, "p", "/p", "m", none, none,
        some 2, none, none, 0⟩], ["T"], ["T"], 3, true⟩).2.active).erase "T" =
      (qCancel 7 "T" ⟨[⟨"T", 1, 2, "processing", 5, "p", "/p", "m", none, none,
        some 2, none, none, 0⟩], ["T"], ["T"], 3, true⟩).2.active ∧
    (qCancel 7 "T" ⟨[⟨"T", 1, 2, "processing", 5, "p", "/p", "m", none, none,
        some 2, none, none, 0⟩], ["T"], ["T"], 3, true⟩).2.inflight =
      ["T"] :=
  cancelTask_frees_slot 7 "T" _ _ rfl rfl (by decide)


/-- Helper: every queue step keeps the activeTasks size within the
concurrency cap: dispatch inserts only below the cap, and every other
step leaves activeTasks unchanged or removes from it. -/
theorem qstep_preserves_bound {q q' : QueueState} (h : QStep q q')
    (hb : q.active.length ≤ q.concurrency) :
    q'.active.length ≤ q'.concurrency := by
  cases h with
  | enqueue now tid prompt pp model prio q => exact hb
  | dispatch now q =>
      unfold qDispatch
      split
      · exact hb
      · split
        · exact hb
        · split
          · exact hb
          · split
            · exact hb
            · simp only [List.length_append, List.length_cons,
                List.length_nil]
              omega
  | dispatchMarkFail q =>
      unfold qDispatchMarkFail
      split
      · exact hb
      · split
        · exact hb
        · split
          · exact hb
          · split
            · exact hb
            · rw [List.length_erase_of_mem (by simp)]
              simp only [List.length_append, List.length_cons,
                List.length_nil]
              omega
  | finishSuccess now tid result costUsd q hmem =>
      exact le_trans ((q.active.erase_sublist tid).length_le) hb
  | finishFailure now tid error q hmem =>
      exact le_trans ((q.active.erase_sublist tid).length_le) hb
  | timeoutFire now tid q hmem =>
      exact le_trans ((q.active.erase_sublist tid).length_le) hb
  | cancel now tid q =>
      unfold qCancel
      split
      · exact hb
      · split
        · exact hb
        · dsimp only
          split
          · exact le_trans ((q.active.erase_sublist tid).length_le) hb
          · exact le_trans ((q.active.erase_sublist tid).length_le) hb

/-- C4: in every state reachable from a queue start by any sequence of
enqueue, dispatch, completion, timeout, and cancellation steps, the
cardinality of the activeTasks map never exceeds the configured
concurrency: processQueue checks the cap before inserting and inserts
the id before markProcessing, and all other transitions only delete. -/
theorem active_le_concurrency (c : Nat) (ts : List Task) (q : QueueState)
    (h : QReachable c ts q) : q.active.length ≤ q.concurrency := by
  induction h with
  | refl => simp [initQueue]
  | tail _ step ih => exact qstep_preserves_bound step ih

/-- Witness for C4 on a two-step reachable state. -/
theorem active_le_concurrency_witness :
    (qDispatch 2 (qEnqueue 1 "T" "p" "/p" "m" 5 (initQueue 1 []))).active.length ≤
      (qDispatch 2 (qEnqueue 1 "T" "p" "/p" "m" 5 (initQueue 1 []))).concurrency :=
  active_le_concurrency 1 [] _
    (Relation.ReflTransGen.tail
      (Relation.ReflTransGen.tail Relation.ReflTransGen.refl
        (QStep.enqueue 1 "T" "p" "/p" "m" 5 _))
      (QStep.dispatch 2 _))

/-- C5: getNextPending returns a pending task that precedes every
pending task in the store under the priority-descending,
created_at-ascending comparator order; consequently, for a quiescent
queue holding T1 (priority 5), T2 (priority 9), T3 (priority 5)
enqueued in that order under concurrency 1, the scheduler dispatches
T2, then T1, then T3, and then finds no further pending task. -/
theorem getNextPending_priority_order :
    (∀ ts t, getNextPending ts = some t →
        t.status = "pending" ∧ ∀ u ∈ ts, u.status = "pending" → taskLE t u) ∧
    (let q0 := qEnqueue 3 "T3" "p" "/p" "m" 5 (qEnqueue 2 "T2" "p" "/p" "m" 9
       (qEnqueue 1 "T1" "p" "/p" "m" 5 (initQueue 1 [])))
     let q1 := qFinishSuccess 5 "T2" "r" 0 (qDispatch 4 q0)
     let q2 := qFinishSuccess 7 "T1" "r" 0 (qDispatch 6 q1)
     let q3 := qFinishSuccess 9 "T3" "r" 0 (qDispatch 8 q2)
     (getNextPending q0.tasks).map (fun t => t.id) = some "T2" ∧
     (qDispatch 4 q0).active = ["T2"] ∧
     (getNextPending q1.tasks).map (fun t => t.id) = some "T1" ∧
     (qDispatch 6 q1).active = ["T1"] ∧
     (getNextPending q2.tasks).map (fun t => t.id) = some "T3" ∧
     (qDispatch 8 q2).active = ["T3"] ∧
     getNextPending q3.tasks = none) := by
  constructor
  · intro ts t h
    unfold getNextPending at h
    set l := ts.filter (fun u => u.status == "pending") with hl
    cases hcase : List.insertionSort taskLE l with
    | nil => rw [hcase] at h; exact absurd h (by simp)
    | cons a rest =>
    rw [hcase] at h
    obtain rfl : a = t := by simpa using h
    have hperm := List.perm_insertionSort taskLE l
    have hsorted := List.sorted_insertionSort taskLE l
    rw [hcase] at hperm hsorted
    have htmem : a ∈ l := hperm.subset (by simp)
    constructor
    · have := List.of_mem_filter htmem
      simpa using this
    · intro u hu hupending
      have humem : u ∈ l := by
        rw [hl]
        exact List.mem_filter.mpr ⟨hu, by simp [hupending]⟩
      have humem' : u ∈ a :: rest := hperm.symm.subset humem
      rcases List.mem_cons.mp humem' with rfl | hurest
      · rcases IsTotal.total (r := taskLE) u u with h | h <;> exact h
      · exact List.rel_of_sorted_cons hsorted u hurest
  · refine ⟨by decide, by decide, by decide, by decide, by decide, by decide,
      by decide⟩

/-- Witness for the C5 theorem: the general part applied to a singleton
pending store. -/
theorem getNextPending_priority_order_witness :
    (createTask 1 "T1" "p" "/p" "m" 5).status = "pending" ∧
    ∀ u ∈ [createTask 1 "T1" "p" "/p" "m" 5], u.status = "pending" →
      taskLE (createTask 1 "T1" "p" "/p" "m" 5) u :=
  getNextPending_priority_order.1 [createTask 1 "T1" "p" "/p" "m" 5]
    (createTask 1 "T1" "p" "/p" "m" 5) (by decide)


/-- Helper: one unfolding step of the retry loop at positive fuel. -/
theorem notifyGo_succ (outcome : Nat → AttemptOutcome)
    (M fuel attempt : Nat) (er : Option String) :
    notifyGo outcome M (fuel + 1) attempt er =
      (match outcome attempt with
       | .resolved s =>
           if 200 ≤ s ∧ s < 300 then ⟨.delivered s attempt, [], 1⟩
           else
             let rest := notifyGo outcome M fuel (attempt + 1)
               (some ("Unexpected status code: " ++ toString s))
             ⟨rest.result, rest.delays, rest.attemptsMade + 1⟩
       | .thrown m =>
           let rest := notifyGo outcome M fuel (attempt + 1) (some m)
           if fuel = 0 then ⟨rest.result, rest.delays, rest.attemptsMade + 1⟩
           else ⟨rest.result, backoffDelay attempt :: rest.delays,
                  rest.attemptsMade + 1⟩) := rfl

/-- Helper: when every attempt from the current one through the last
fails, the retry loop runs all remaining attempts, returns the
exhaustion record carrying the last error, and awaits the exponential
backoff exactly after each thrown attempt before the last (a resolved
non-2xx attempt retries with no wait, since the backoff sits in the
catch branch only). -/
theorem notifyGo_all_fail (outcome : Nat → AttemptOutcome) (M : Nat) :
    ∀ f attempt er, attempt + f = M →
      (∀ k, attempt ≤ k → k ≤ M → attemptFails (outcome k) = true) →
      notifyGo outcome M (f + 1) attempt er =
        ⟨.exhausted M (some (attemptErrMsg (outcome M))),
         ((List.range' attempt f).filter (fun n => isThrown (outcome n))).map
           backoffDelay,
         f + 1⟩ := by
  intro f
  induction f with
  | zero =>
      intro attempt er hsum hfail
      obtain rfl : attempt = M := by omega
      cases hout : outcome attempt with
      | resolved st =>
          have hf := hfail attempt le_rfl le_rfl
          rw [hout] at hf
          have hno : ¬ (200 ≤ st ∧ st < 300) := by
            simp [attemptFails] at hf
            omega
          simp [notifyGo, hout, hno, attemptErrMsg, List.range']
      | thrown m =>
          simp [notifyGo, hout, attemptErrMsg, List.range']
  | succ f ih =>
      intro attempt er hsum hfail
      have hattempt : attempt ≤ M := by omega
      cases hout : outcome attempt with
      | resolved st =>
          have hf := hfail attempt le_rfl hattempt
          rw [hout] at hf
          have hno : ¬ (200 ≤ st ∧ st < 300) := by
            simp [attemptFails] at hf
            omega
          have hrec := ih (attempt + 1)
            (some ("Unexpected status code: " ++ toString st)) (by omega)
            (fun k hk1 hk2 => hfail k (by omega) hk2)
          rw [notifyGo_succ, hout]
          dsimp only
          rw [if_neg hno, hrec]
          simp [List.range'_succ, isThrown, hout]
      | thrown m =>
          have hrec := ih (attempt + 1) (some m) (by omega)
            (fun k hk1 hk2 => hfail k (by omega) hk2)
          rw [notifyGo_succ, hout]
          dsimp only
          rw [if_neg (Nat.succ_ne_zero f), hrec]
          simp [List.range'_succ, isThrown, hout]

/-- Helper: when the first failures are followed by a 2xx response at
attempt n within the budget, the retry loop stops at attempt n with the
delivered result, having made attempts up to n only. -/
theorem notifyGo_success (outcome : Nat → AttemptOutcome) (M n st : Nat)
    (hst2 : 200 ≤ st) (hst3 : st < 300) (hn : outcome n = .resolved st) :
    ∀ f attempt er, attempt + f = M → attempt ≤ n → n ≤ M →
      (∀ k, attempt ≤ k → k < n → attemptFails (outcome k) = true) →
      (notifyGo outcome M (f + 1) attempt er).result = .delivered st n ∧
      (notifyGo outcome M (f + 1) attempt er).attemptsMade = n + 1 - attempt := by
  intro f
  induction f with
  | zero =>
      intro attempt er hsum h1 h2 hfail
      obtain rfl : attempt = M := by omega
      obtain rfl : n = attempt := by omega
      constructor
      · simp [notifyGo, hn, hst2, hst3]
      · simp [notifyGo, hn, hst2, hst3]
  | succ f ih =>
      intro attempt er hsum h1 h2 hfail
      by_cases hcase : attempt = n
      · subst hcase
        constructor
        · rw [notifyGo_succ, hn]
          dsimp only
          rw [if_pos ⟨hst2, hst3⟩]
        · rw [notifyGo_succ, hn]
          dsimp only
          rw [if_pos ⟨hst2, hst3⟩]
          dsimp only
          omega
      · have hlt : attempt < n := lt_of_le_of_ne h1 hcase
        have hfa := hfail attempt le_rfl hlt
        cases hout : outcome attempt with
        | resolved s2 =>
            have hno : ¬ (200 ≤ s2 ∧ s2 < 300) := by
              rw [hout] at hfa
              simp [attemptFails] at hfa
              omega
            have hrec := ih (attempt + 1)
              (some ("Unexpected status code: " ++ toString s2))
              (by omega) (by omega) h2
              (fun k hk1 hk2 => hfail k (by omega) hk2)
            constructor
            · rw [notifyGo_succ, hout]
              dsimp only
              rw [if_neg hno]
              exact hrec.1
            · rw [notifyGo_succ, hout]
              dsimp only
              rw [if_neg hno]
              dsimp only
              rw [hrec.2]
              omega
        | thrown m =>
            have hrec := ih (attempt + 1) (some m) (by omega) (by omega) h2
              (fun k hk1 hk2 => hfail k (by omega) hk2)
            constructor
            · rw [notifyGo_succ, hout]
              dsimp only
              rw [if_neg (Nat.succ_ne_zero f)]
              exact hrec.1
            · rw [notifyGo_succ, hout]
              dsimp only
              rw [if_neg (Nat.succ_ne_zero f)]
              dsimp only
              rw [hrec.2]
              omega

/-- C8 counterexample: with retries = 2 and every attempt resolving with
status 500, notify makes both attempts and returns the exhaustion
record, but it awaits no backoff delay between the two attempts (the
wait sits only in the catch branch, and a resolved non-2xx response
retries immediately), contradicting the claimed wait of
min(1000*2^(n-1), 10000) ms between consecutive attempts. -/
theorem C8_counterexample :
    let tr := notify ⟨true, some "cb", 2⟩ none (fun _ => .resolved 500)
    tr.result = .exhausted 2 (some "Unexpected status code: 500") ∧
    tr.attemptsMade = 2 ∧ tr.delays = [] ∧ ([] : List Nat) ≠ [1000] := by
  decide

/-- C8 (amended): with the notifier enabled and a URL configured, if
every attempt fails (throws, or resolves with a non-2xx status) the
notifier makes exactly retries attempts and returns the exhaustion
record carrying the attempt count and the last error, awaiting
min(1000*2^(n-1), 10000) ms after exactly those failing attempts n
before the last that threw (resolved non-2xx attempts retry with no
wait); and a call whose attempt n receives a 2xx status after only
failing attempts returns the delivered result for attempt n and makes
exactly n attempts. -/
theorem notify_retry_policy :
    (∀ (cfg : WebhookCfg) (urlO : Option String)
       (outcome : Nat → AttemptOutcome), cfg.enabled = true →
       (urlO.orElse (fun _ => cfg.defaultUrl)).isSome = true →
       1 ≤ cfg.maxRetries →
       (∀ n, 1 ≤ n → n ≤ cfg.maxRetries → attemptFails (outcome n) = true) →
       notify cfg urlO outcome =
         ⟨.exhausted cfg.maxRetries
            (some (attemptErrMsg (outcome cfg.maxRetries))),
          ((List.range' 1 (cfg.maxRetries - 1)).filter
             (fun n => isThrown (outcome n))).map backoffDelay,
          cfg.maxRetries⟩) ∧
    (∀ (cfg : WebhookCfg) (urlO : Option String)
       (outcome : Nat → AttemptOutcome) (n st : Nat), cfg.enabled = true →
       (urlO.orElse (fun _ => cfg.defaultUrl)).isSome = true →
       1 ≤ n → n ≤ cfg.maxRetries →
       (∀ k, 1 ≤ k → k < n → attemptFails (outcome k) = true) →
       outcome n = .resolved st → 200 ≤ st → st < 300 →
       (notify cfg urlO outcome).result = .delivered st n ∧
       (notify cfg urlO outcome).attemptsMade = n) := by
  constructor
  · intro cfg urlO outcome hen hurl hretries hfail
    obtain ⟨u, hu⟩ := Option.isSome_iff_exists.mp hurl
    obtain ⟨m, hm⟩ : ∃ m, cfg.maxRetries = m + 1 :=
      ⟨cfg.maxRetries - 1, by omega⟩
    unfold notify
    rw [if_neg (by simp [hen]), hu, hm]
    have := notifyGo_all_fail outcome (m + 1) m 1 none (by omega)
      (fun k hk1 hk2 => hfail k hk1 (by omega))
    rw [this]
    simp
  · intro cfg urlO outcome n st hen hurl hn1 hnM hfail hres h2 h3
    obtain ⟨u, hu⟩ := Option.isSome_iff_exists.mp hurl
    obtain ⟨m, hm⟩ : ∃ m, cfg.maxRetries = m + 1 :=
      ⟨cfg.maxRetries - 1, by omega⟩
    unfold notify
    rw [if_neg (by simp [hen]), hu, hm]
    have := notifyGo_success outcome (m + 1) n st h2 h3 hres m 1 none
      (by omega) hn1 (by omega) (fun k hk1 hk2 => hfail k hk1 hk2)
    exact ⟨this.1, by rw [this.2]; omega⟩

/-- Witness for the amended C8 theorem: three attempts all throwing
ECONNREFUSED exhaust with backoffs of 1000 ms and 2000 ms. -/
theorem notify_retry_policy_witness :
    notify ⟨true, some "cb", 3⟩ none (fun _ => .thrown "ECONNREFUSED") =
      ⟨.exhausted 3 (some "ECONNREFUSED"), [1000, 2000], 3⟩ := by
  have h := notify_retry_policy.1 ⟨true, some "cb", 3⟩ none
    (fun _ => .thrown "ECONNREFUSED") rfl rfl (by norm_num)
    (fun n h1 h2 => rfl)
  rw [h]
  decide

end CCServer
